import Mathlib

/-!
Shallow embedding of the VSS PostgreSQL storage engine
(`src/rust/impls/src/postgres_store.rs`) and verification of its
specification.  The database is modelled as a list of records; each SQL
statement becomes a pure function returning the new database together with
the number of affected rows, mirroring `Transaction::execute`.
-/

namespace Vss

/-- Byte sequences (Rust `Vec<u8>` / `Bytes`) modelled as lists of naturals. -/
abbrev Bytes := List Nat

/-- `api::types::KeyValue { key, value, version }`. -/
structure KeyValue where
  key : String
  value : Bytes
  version : Int
deriving Repr, DecidableEq

/-- Modelled from the spec: the reserved key literal from `api::kv_store`
(`GLOBAL_VERSION_KEY`), "the reserved literal \x7b...\x7d `\"vss_global_version\"`". -/
def GLOBAL_VERSION_KEY : String := "vss_global_version"

/-- Modelled from the spec: `api::kv_store::INITIAL_RECORD_VERSION`.  The spec
fixes it to 1: "After a successful put of `\x7bkey: K, version: 0\x7d`, a subsequent
get returns version 1". -/
def INITIAL_RECORD_VERSION : Int := 1

/-- Maximum positive 64-bit signed integer (`i64::MAX`). -/
def I64_MAX : Int := 2 ^ 63 - 1

/-- Maximum positive 32-bit signed integer (`i32::MAX`), the default page size. -/
def I32_MAX : Int := 2 ^ 31 - 1

/-- Rust `i64::saturating_add(1)` for a value already in `i64` range. -/
def satAdd1 (v : Int) : Int := if v + 1 > I64_MAX then I64_MAX else v + 1

/-- `VssDbRecord`: one row of the `vss_db` relation.  Timestamps are opaque
naturals supplied by the caller in place of `Utc::now()`. -/
structure VssDbRecord where
  user_token : String
  store_id : String
  key : String
  value : Bytes
  version : Int
  created_at : Nat
  last_updated_at : Nat
deriving Repr, DecidableEq

/-- The `vss_db` relation, a list of rows.  Operations preserve uniqueness of
the composite primary key `(user_token, store_id, key)`. -/
abbrev Db := List VssDbRecord

/-- Composite-primary-key match: `user_token = $u AND store_id = $s AND key = $k`. -/
def pkMatches (r : VssDbRecord) (u s k : String) : Bool :=
  r.user_token == u && r.store_id == s && r.key == k

/-- Whether a row with the given composite key exists (drives `ON CONFLICT`). -/
def dbContains (db : Db) (u s k : String) : Bool :=
  db.any (fun r => pkMatches r u s k)

/-- `SELECT ... WHERE user_token = $1 AND store_id = $2 AND key = $3` —
at most one row by primary-key uniqueness. -/
def dbGet (db : Db) (u s k : String) : Option VssDbRecord :=
  db.find? (fun r => pkMatches r u s k)

/-- `PostgresBackendImpl::build_vss_record` with `now` in place of `Utc::now()`. -/
def build_vss_record (now : Nat) (user_token store_id : String) (kv : KeyValue) :
    VssDbRecord :=
  { user_token := user_token
    store_id := store_id
    key := kv.key
    value := kv.value
    version := kv.version
    created_at := now
    last_updated_at := now }

/-- `execute_non_conditional_upsert`: `INSERT ... VALUES (..., INITIAL_RECORD_VERSION, ...)
ON CONFLICT (user_token, store_id, key) DO UPDATE SET value = EXCLUDED.value,
version = INITIAL_RECORD_VERSION, last_updated_at = EXCLUDED.last_updated_at`.
Always affects exactly one row. -/
def execute_non_conditional_upsert (db : Db) (vssRecord : VssDbRecord) : Db × Nat :=
  if dbContains db vssRecord.user_token vssRecord.store_id vssRecord.key then
    (db.map (fun r =>
      if pkMatches r vssRecord.user_token vssRecord.store_id vssRecord.key then
        { r with value := vssRecord.value, version := INITIAL_RECORD_VERSION,
                 last_updated_at := vssRecord.last_updated_at }
      else r), 1)
  else
    ({ vssRecord with version := INITIAL_RECORD_VERSION } :: db, 1)

/-- `execute_conditional_insert`: `INSERT ... VALUES (..., INITIAL_RECORD_VERSION, ...)
ON CONFLICT DO NOTHING`.  Zero rows when the composite key already exists. -/
def execute_conditional_insert (db : Db) (vssRecord : VssDbRecord) : Db × Nat :=
  if dbContains db vssRecord.user_token vssRecord.store_id vssRecord.key then
    (db, 0)
  else
    ({ vssRecord with version := INITIAL_RECORD_VERSION } :: db, 1)

/-- Row predicate of the conditional statements:
`user_token = $u AND store_id = $s AND key = $k AND version = $v`. -/
def condMatches (r : VssDbRecord) (vssRecord : VssDbRecord) : Bool :=
  pkMatches r vssRecord.user_token vssRecord.store_id vssRecord.key &&
    r.version == vssRecord.version

/-- `execute_conditional_update`: `UPDATE vss_db SET value = $1,
version = $2, last_updated_at = $3 WHERE user_token = $4 AND store_id = $5
AND key = $6 AND version = $7` with `$2 = version.saturating_add(1)`. -/
def execute_conditional_update (db : Db) (vssRecord : VssDbRecord) : Db × Nat :=
  (db.map (fun r =>
    if condMatches r vssRecord then
      { r with value := vssRecord.value, version := satAdd1 vssRecord.version,
               last_updated_at := vssRecord.last_updated_at }
    else r),
   (db.filter (fun r => condMatches r vssRecord)).length)

/-- `execute_put_object_query`: dispatch on the requested version. -/
def execute_put_object_query (db : Db) (vssRecord : VssDbRecord) : Db × Nat :=
  if vssRecord.version == -1 then
    execute_non_conditional_upsert db vssRecord
  else if vssRecord.version == 0 then
    execute_conditional_insert db vssRecord
  else
    execute_conditional_update db vssRecord

/-- `execute_non_conditional_delete`: `DELETE FROM vss_db WHERE user_token = $1
AND store_id = $2 AND key = $3`. -/
def execute_non_conditional_delete (db : Db) (vssRecord : VssDbRecord) : Db × Nat :=
  ((db.filter (fun r =>
      !(pkMatches r vssRecord.user_token vssRecord.store_id vssRecord.key))),
   (db.filter (fun r =>
      pkMatches r vssRecord.user_token vssRecord.store_id vssRecord.key)).length)

/-- `execute_conditional_delete`: `DELETE FROM vss_db WHERE user_token = $1
AND store_id = $2 AND key = $3 AND version = $4`. -/
def execute_conditional_delete (db : Db) (vssRecord : VssDbRecord) : Db × Nat :=
  ((db.filter (fun r => !(condMatches r vssRecord))),
   (db.filter (fun r => condMatches r vssRecord)).length)

/-- `execute_delete_object_query`: dispatch on the requested version. -/
def execute_delete_object_query (db : Db) (vssRecord : VssDbRecord) : Db × Nat :=
  if vssRecord.version == -1 then
    execute_non_conditional_delete db vssRecord
  else
    execute_conditional_delete db vssRecord

/-- `api::error::VssError` (the variants the storage engine produces). -/
inductive VssError where
  | NoSuchKeyError (msg : String)
  | InvalidRequestError (msg : String)
  | ConflictError (msg : String)
  | InternalServerError (msg : String)
  | AuthError (msg : String)
deriving Repr, DecidableEq

/-- `api::types::GetObjectRequest`. -/
structure GetObjectRequest where
  store_id : String
  key : String
deriving Repr, DecidableEq

/-- `api::types::GetObjectResponse`. -/
structure GetObjectResponse where
  value : Option KeyValue
deriving Repr, DecidableEq

/-- `api::types::PutObjectRequest`. -/
structure PutObjectRequest where
  store_id : String
  global_version : Option Int
  transaction_items : List KeyValue
  delete_items : List KeyValue
deriving Repr, DecidableEq

/-- `api::types::PutObjectResponse` (empty message). -/
structure PutObjectResponse where
deriving Repr, DecidableEq

/-- `api::types::DeleteObjectRequest`. -/
structure DeleteObjectRequest where
  store_id : String
  key_value : Option KeyValue
deriving Repr, DecidableEq

/-- `api::types::DeleteObjectResponse` (empty message). -/
structure DeleteObjectResponse where
deriving Repr, DecidableEq

/-- `api::types::ListKeyVersionsRequest`. -/
structure ListKeyVersionsRequest where
  store_id : String
  key_prefix : Option String
  page_size : Option Int
  page_token : Option String
deriving Repr, DecidableEq

/-- `api::types::ListKeyVersionsResponse`. -/
structure ListKeyVersionsResponse where
  key_versions : List KeyValue
  next_page_token : Option String
  global_version : Option Int
deriving Repr, DecidableEq

/-- `MAX_PUT_REQUEST_ITEM_COUNT`. -/
def MAX_PUT_REQUEST_ITEM_COUNT : Nat := 1000

/-- `LIST_KEY_VERSIONS_MAX_PAGE_SIZE`. -/
def LIST_KEY_VERSIONS_MAX_PAGE_SIZE : Int := 100

/-- `KvStore::get` for `PostgresBackendImpl`: primary-key lookup; on a miss the
reserved global-version key yields `\x7bkey, empty value, version 0\x7d`, any other
key fails with `NoSuchKeyError`.  `get` executes a single `SELECT`, so the
database is not part of the result. -/
def get (db : Db) (user_token : String) (request : GetObjectRequest) :
    Except VssError GetObjectResponse :=
  match dbGet db user_token request.store_id request.key with
  | some row =>
      .ok { value := some { key := row.key, value := row.value, version := row.version } }
  | none =>
      if request.key == GLOBAL_VERSION_KEY then
        .ok { value := some { key := GLOBAL_VERSION_KEY, value := [], version := 0 } }
      else
        .error (VssError.NoSuchKeyError "Requested key not found.")

/-- Run `execute_put_object_query` over a list of records, collecting the
affected-row count of each statement (the first `for` loop of `put`). -/
def runPutQueries (db : Db) : List VssDbRecord → Db × List Nat
  | [] => (db, [])
  | vssRecord :: rest =>
      let step := execute_put_object_query db vssRecord
      let restRun := runPutQueries step.1 rest
      (restRun.1, step.2 :: restRun.2)

/-- Run `execute_delete_object_query` over a list of records, collecting the
affected-row count of each statement (the second `for` loop of `put`). -/
def runDeleteQueries (db : Db) : List VssDbRecord → Db × List Nat
  | [] => (db, [])
  | vssRecord :: rest =>
      let step := execute_delete_object_query db vssRecord
      let restRun := runDeleteQueries step.1 rest
      (restRun.1, step.2 :: restRun.2)

/-- The write set of a `put`: one record per `transaction_items` entry, then —
when `global_version` is present — the appended reserved-key record with
`version = global_version` and empty value. -/
def putWriteRecords (now : Nat) (user_token : String) (request : PutObjectRequest) :
    List VssDbRecord :=
  let base := request.transaction_items.map
    (build_vss_record now user_token request.store_id)
  match request.global_version with
  | some global_version =>
      base ++ [build_vss_record now user_token request.store_id
        { key := GLOBAL_VERSION_KEY, value := [], version := global_version }]
  | none => base

/-- The delete set of a `put`: one record per `delete_items` entry. -/
def putDeleteRecords (now : Nat) (user_token : String) (request : PutObjectRequest) :
    List VssDbRecord :=
  request.delete_items.map (build_vss_record now user_token request.store_id)

/-- The `batch_results` vector of `put`: affected-row counts of the write set
followed by those of the delete set. -/
def putBatchResults (db : Db) (now : Nat) (user_token : String)
    (request : PutObjectRequest) : List Nat :=
  let putsRun := runPutQueries db (putWriteRecords now user_token request)
  (putsRun.2 ++ (runDeleteQueries putsRun.1 (putDeleteRecords now user_token request)).2)

/-- The database state a fully successful `put` batch commits: the write set
executed first, then the delete set, over the starting database. -/
def putCommittedDb (db : Db) (now : Nat) (user_token : String)
    (request : PutObjectRequest) : Db :=
  (runDeleteQueries (runPutQueries db (putWriteRecords now user_token request)).1
    (putDeleteRecords now user_token request)).1

/-- `KvStore::put` for `PostgresBackendImpl`.  Returns the response together
with the database after commit (or the unchanged database after the size-check
rejection or the rollback). -/
def put (db : Db) (now : Nat) (user_token : String) (request : PutObjectRequest) :
    Except VssError PutObjectResponse × Db :=
  if request.transaction_items.length + request.delete_items.length >
      MAX_PUT_REQUEST_ITEM_COUNT then
    (.error (VssError.InvalidRequestError
      "Number of write items per request should be less than equal to 1000"), db)
  else if (putBatchResults db now user_token request).any
      (fun num_rows => num_rows == 0) then
    (.error (VssError.ConflictError
      "Transaction could not be completed due to a possible conflict"), db)
  else
    (.ok {}, putCommittedDb db now user_token request)

/-- Lexicographic strict order on character lists: the text comparison the SQL
`key > $3` predicate and `ORDER BY key` use (byte-order collation). -/
def charListLt : List Char → List Char → Bool
  | [], [] => false
  | [], _ :: _ => true
  | _ :: _, [] => false
  | a :: as, b :: bs => decide (a < b) || (a == b && charListLt as bs)

/-- Strict lexicographic order on strings, computably. -/
def strLt (a b : String) : Bool := charListLt a.data b.data

/-- Lexicographic `≤` on strings, computably. -/
def strLe (a b : String) : Bool := !(strLt b a)

/-- Does the pattern head start the character list? -/
def charListStarts : List Char → List Char → Bool
  | [], _ => true
  | _ :: _, [] => false
  | a :: as, b :: bs => a == b && charListStarts as bs

/-- The `key LIKE $4` test, `$4` being the prefix followed by `%`: does `p`
start `s`? -/
def strStartsWith (p s : String) : Bool := charListStarts p.data s.data

/-- Insert a row into a list that is sorted ascending by `key` (part of the
`ORDER BY key` model). -/
def insertByKey (row : VssDbRecord) : List VssDbRecord → List VssDbRecord
  | [] => [row]
  | x :: xs => if strLe row.key x.key then row :: x :: xs else x :: insertByKey row xs

/-- Sort rows ascending by `key` (`ORDER BY key`). -/
def sortByKey : List VssDbRecord → List VssDbRecord
  | [] => []
  | row :: rest => insertByKey row (sortByKey rest)

/-- The listing query: `SELECT key, version FROM vss_db WHERE user_token = $1
AND store_id = $2 AND key > $3 AND key LIKE $4 ORDER BY key LIMIT $5`, where
`$4` is always `key_prefix ++ "%"`, modelled as a prefix test (SQL wildcard
characters inside the prefix are not modelled; no claim depends on them). -/
def listQuery (db : Db) (user_token store_id page_token_param key_prefix : String)
    (limit : Int) : List VssDbRecord :=
  (sortByKey (db.filter (fun r =>
    r.user_token == user_token && r.store_id == store_id &&
    strLt page_token_param r.key && strStartsWith key_prefix r.key))).take limit.toNat

/-- `KvStore::list_key_versions` for `PostgresBackendImpl`.  On a `None` page
token the current global version is first read through `get` against the
reserved key (`self.get(...).await?`); the listing query result is then
filtered of the reserved key and mapped to key/version pairs. -/
def list_key_versions (db : Db) (user_token : String)
    (request : ListKeyVersionsRequest) : Except VssError ListKeyVersionsResponse :=
  let store_id := request.store_id
  let page_token := request.page_token
  let page_size := request.page_size.getD I32_MAX
  let globalVersionStep : Except VssError (Option Int) :=
    if page_token.isNone then
      (get db user_token { store_id := store_id, key := GLOBAL_VERSION_KEY }).map
        (fun get_response => get_response.value.map (fun kv => kv.version))
    else .ok none
  match globalVersionStep with
  | .error e => .error e
  | .ok global_version =>
    let limit := min page_size LIST_KEY_VERSIONS_MAX_PAGE_SIZE
    let rows := listQuery db user_token store_id (page_token.getD "")
      (request.key_prefix.getD "") limit
    let key_versions : List KeyValue :=
      (rows.filter (fun row => row.key != GLOBAL_VERSION_KEY)).map
        (fun row => { key := row.key, value := [], version := row.version })
    let next_page_token :=
      if key_versions.isEmpty then some ""
      else key_versions.getLast?.map (fun kv => kv.key)
    .ok { key_versions := key_versions, next_page_token := next_page_token,
          global_version := global_version }

/-- `KvStore::delete` for `PostgresBackendImpl`.  A zero-row delete rolls the
transaction back but still answers `ok`. -/
def delete (db : Db) (now : Nat) (user_token : String) (request : DeleteObjectRequest) :
    Except VssError DeleteObjectResponse × Db :=
  match request.key_value with
  | none =>
      (.error (VssError.InvalidRequestError
        "key_value missing in DeleteObjectRequest"), db)
  | some key_value =>
      let vssRecord := build_vss_record now user_token request.store_id key_value
      let deleteRun := execute_delete_object_query db vssRecord
      if deleteRun.2 == 0 then
        (.ok {}, db)
      else
        (.ok {}, deleteRun.1)

/-! ### Helper lemmas -/

/-- One affected-row count is collected per executed write statement. -/
theorem runPutQueries_snd_length (recs : List VssDbRecord) (db : Db) :
    (runPutQueries db recs).2.length = recs.length := by
  induction recs generalizing db with
  | nil => rfl
  | cons r rest ih => simp [runPutQueries, ih]

/-- One affected-row count is collected per executed delete statement. -/
theorem runDeleteQueries_snd_length (recs : List VssDbRecord) (db : Db) :
    (runDeleteQueries db recs).2.length = recs.length := by
  induction recs generalizing db with
  | nil => rfl
  | cons r rest ih => simp [runDeleteQueries, ih]

/-- A `put` whose item count passes the size check never answers
`InvalidRequestError`. -/
theorem put_first_component_ne_invalid (db : Db) (now : Nat) (user_token : String)
    (request : PutObjectRequest)
    (hsize : request.transaction_items.length + request.delete_items.length ≤
      MAX_PUT_REQUEST_ITEM_COUNT) :
    ∀ msg, (put db now user_token request).1 ≠
      .error (VssError.InvalidRequestError msg) := by
  intro msg
  unfold put
  rw [if_neg (by omega)]
  split
  · simp
  · simp

/-! ### C1 -/

/-- The C1 request: one conditional insert of key `"a"` plus `global_version = 5`. -/
def putRequestA5 : PutObjectRequest :=
  { store_id := "s", global_version := some 5,
    transaction_items := [{ key := "a", value := [65], version := 0 }],
    delete_items := [] }

/-- The amended C1 request: the same item with `global_version = 0`. -/
def putRequestA0 : PutObjectRequest :=
  { store_id := "s", global_version := some 0,
    transaction_items := [{ key := "a", value := [65], version := 0 }],
    delete_items := [] }

/-- C1 counterexample: starting from a store with no records, the put of
`\x7bkey "a", value "A", version 0\x7d` with `global_version = 5` does not succeed:
the appended reserved-key write has version 5, is dispatched as a conditional
update, matches no row, and the whole batch fails with `Conflict`, leaving the
store empty.  In particular get of `"a"` afterwards cannot return anything. -/
theorem put_global_version_five_from_empty_conflicts :
    put [] 0 "u" putRequestA5 =
      (.error (VssError.ConflictError
        "Transaction could not be completed due to a possible conflict"), []) := by
  rfl

/-- C1 (amended): starting from a store with no records,
put of `\x7bkey "a", value "A", version 0\x7d` with `global_version = 0` succeeds;
afterwards get of `"a"` returns `\x7bvalue "A", version 1\x7d` and get of the
reserved key returns version 1 — the appended global-version write is built
with `version = global_version` and dispatched through the same per-operation
version rules as ordinary write items (here version 0 ⇒ conditional insert,
stored at version 1). -/
theorem put_global_version_zero_from_empty_couples :
    (put [] 0 "u" putRequestA0).1 = .ok {} ∧
    get (put [] 0 "u" putRequestA0).2 "u" { store_id := "s", key := "a" } =
      .ok { value := some { key := "a", value := [65], version := 1 } } ∧
    get (put [] 0 "u" putRequestA0).2 "u"
        { store_id := "s", key := GLOBAL_VERSION_KEY } =
      .ok { value := some { key := GLOBAL_VERSION_KEY, value := [], version := 1 } } :=
  ⟨rfl, rfl, rfl⟩

/-! ### C2 -/

/-- C2: for every put whose write set executes (item count within the limit),
if any single operation of the batch affected zero rows the transaction is
rolled back and put fails with `Conflict`, leaving the database unchanged;
if every operation affected at least one row the transaction commits. -/
theorem put_batch_atomicity (db : Db) (now : Nat) (user_token : String)
    (request : PutObjectRequest)
    (hsize : request.transaction_items.length + request.delete_items.length ≤
      MAX_PUT_REQUEST_ITEM_COUNT) :
    (0 ∈ putBatchResults db now user_token request →
      put db now user_token request =
        (.error (VssError.ConflictError
          "Transaction could not be completed due to a possible conflict"), db)) ∧
    (0 ∉ putBatchResults db now user_token request →
      put db now user_token request =
        (.ok {}, putCommittedDb db now user_token request)) := by
  constructor
  · intro hmem
    unfold put
    rw [if_neg (by omega), if_pos]
    rw [List.any_eq_true]
    exact ⟨0, hmem, by simp⟩
  · intro hmem
    unfold put
    rw [if_neg (by omega), if_neg]
    intro hany
    rw [List.any_eq_true] at hany
    obtain ⟨x, hx, hx0⟩ := hany
    rw [beq_iff_eq] at hx0
    exact hmem (hx0 ▸ hx)

/-- A one-item put request used as concrete witness input. -/
def putRequestSingleInsert : PutObjectRequest :=
  { store_id := "s", global_version := none,
    transaction_items := [{ key := "a", value := [65], version := 0 }],
    delete_items := [] }

/-- Witness for C2 at a concrete input: a single fresh conditional insert
affects one row, so the batch commits. -/
theorem put_batch_atomicity_witness :
    put [] 0 "u" putRequestSingleInsert =
      (.ok {}, putCommittedDb [] 0 "u" putRequestSingleInsert) :=
  (put_batch_atomicity [] 0 "u" putRequestSingleInsert (by decide)).2 (by decide)

/-! ### C7 -/

/-- C7: a put with more than 1000 items in `transaction_items` plus
`delete_items` fails with `InvalidRequest` and mutates nothing (the database
component is returned unchanged); a put within the limit passes the size
check, i.e. never answers `InvalidRequest`. -/
theorem put_size_check (db : Db) (now : Nat) (user_token : String)
    (request : PutObjectRequest) :
    (request.transaction_items.length + request.delete_items.length >
        MAX_PUT_REQUEST_ITEM_COUNT →
      put db now user_token request =
        (.error (VssError.InvalidRequestError
          "Number of write items per request should be less than equal to 1000"), db)) ∧
    (request.transaction_items.length + request.delete_items.length ≤
        MAX_PUT_REQUEST_ITEM_COUNT →
      ∀ msg, (put db now user_token request).1 ≠
        .error (VssError.InvalidRequestError msg)) := by
  constructor
  · intro hgt
    unfold put
    rw [if_pos hgt]
  · exact put_first_component_ne_invalid db now user_token request

/-- An oversize put request (1001 delete items) used as concrete witness input. -/
def putRequestOversize : PutObjectRequest :=
  { store_id := "s", global_version := none,
    transaction_items := [],
    delete_items := List.replicate 1001 { key := "k", value := [], version := -1 } }

/-- Witness for C7 at concrete inputs: an oversize request (1001 delete items)
is rejected with the database unchanged. -/
theorem put_size_check_witness :
    put [] 0 "u" putRequestOversize =
      (.error (VssError.InvalidRequestError
        "Number of write items per request should be less than equal to 1000"), []) :=
  (put_size_check [] 0 "u" putRequestOversize).1
    (by simp only [putRequestOversize, List.length_replicate, List.length_nil,
      MAX_PUT_REQUEST_ITEM_COUNT]; omega)

/-! ### C3 -/

/-- C3 counterexample: a call with `page_token = some ""` (present but empty)
omits `global_version` from the response, contrary to the claim that an empty
page token is treated like an absent one. -/
theorem list_empty_page_token_omits_global_version :
    list_key_versions [] "u"
        { store_id := "s", key_prefix := none, page_size := none, page_token := some "" } =
      .ok { key_versions := [], next_page_token := some "", global_version := none } :=
  rfl

/-- C3 (amended): `global_version` is included in the response exactly when
`page_token` is absent (`None`); any present page token — the empty string
included — omits it.  When included, its value is obtained through `get`
against the reserved key, yielding the stored version, or 0 when absent. -/
theorem list_global_version_iff_absent_page_token (db : Db) (user_token : String)
    (request : ListKeyVersionsRequest) :
    ∃ response, list_key_versions db user_token request = .ok response ∧
      response.global_version =
        (if request.page_token.isNone then
          some (match dbGet db user_token request.store_id GLOBAL_VERSION_KEY with
                | some row => row.version
                | none => 0)
        else none) := by
  unfold list_key_versions
  cases hpt : request.page_token with
  | none =>
    simp only [hpt, Option.isNone_none, if_pos]
    unfold get
    cases hg : dbGet db user_token request.store_id GLOBAL_VERSION_KEY with
    | some row => simp [hg, Except.map]
    | none => simp [hg, Except.map]
  | some t =>
    simp [hpt]

/-! ### C4 -/

/-- Saturating increment is the minimum of the successor and `i64::MAX`. -/
theorem satAdd1_eq_min (v : Int) : satAdd1 v = min (v + 1) I64_MAX := by
  unfold satAdd1
  rcases le_total (v + 1) I64_MAX with h | h
  · rw [if_neg (by omega), min_eq_left h]
  · rw [min_eq_right h]
    split
    · rfl
    · omega

/-- C4: a write item with requested version `V ≥ 1` is dispatched as a
conditional update: only rows whose stored version equals `V` (under the
composite key) are modified, and the new stored version is `V + 1`,
saturating at `i64::MAX` instead of wrapping. -/
theorem put_item_version_ge_one_conditional_update (db : Db)
    (vssRecord : VssDbRecord) (hv : 1 ≤ vssRecord.version) :
    execute_put_object_query db vssRecord = execute_conditional_update db vssRecord ∧
    (execute_put_object_query db vssRecord).1 =
      db.map (fun r =>
        if condMatches r vssRecord then
          { r with value := vssRecord.value,
                   version := min (vssRecord.version + 1) I64_MAX,
                   last_updated_at := vssRecord.last_updated_at }
        else r) := by
  have hdisp : execute_put_object_query db vssRecord =
      execute_conditional_update db vssRecord := by
    unfold execute_put_object_query
    rw [if_neg, if_neg]
    · simp only [beq_iff_eq]
      omega
    · simp only [beq_iff_eq]
      omega
  refine ⟨hdisp, ?_⟩
  rw [hdisp]
  show db.map _ = db.map _
  have hfun : ∀ r : VssDbRecord,
      (if condMatches r vssRecord then
        { r with value := vssRecord.value, version := satAdd1 vssRecord.version,
                 last_updated_at := vssRecord.last_updated_at }
      else r) =
      (if condMatches r vssRecord then
        { r with value := vssRecord.value,
                 version := min (vssRecord.version + 1) I64_MAX,
                 last_updated_at := vssRecord.last_updated_at }
      else r) := by
    intro r
    rw [satAdd1_eq_min]
  exact congrArg (fun f => db.map f) (funext hfun)

/-- A database for the C4 witness: one record of version 1. -/
def dbOneRecordV1 : Db :=
  [{ user_token := "u", store_id := "s", key := "k", value := [1],
     version := 1, created_at := 0, last_updated_at := 0 }]

/-- The C4 witness record: an update of key `"k"` at requested version 1. -/
def updateRecordV1 : VssDbRecord :=
  { user_token := "u", store_id := "s", key := "k", value := [2],
    version := 1, created_at := 5, last_updated_at := 7 }

/-- Witness for C4 at a concrete input. -/
theorem put_item_version_ge_one_conditional_update_witness :
    execute_put_object_query dbOneRecordV1 updateRecordV1 =
      execute_conditional_update dbOneRecordV1 updateRecordV1 ∧
    (execute_put_object_query dbOneRecordV1 updateRecordV1).1 =
      dbOneRecordV1.map (fun r =>
        if condMatches r updateRecordV1 then
          { r with value := updateRecordV1.value,
                   version := min (updateRecordV1.version + 1) I64_MAX,
                   last_updated_at := updateRecordV1.last_updated_at }
        else r) :=
  put_item_version_ge_one_conditional_update dbOneRecordV1 updateRecordV1 (by decide)

/-! ### C5 -/

/-- C5: `get` returns the record when the composite key exists; on a miss the
reserved global-version key yields `\x7bkey, empty value, version 0\x7d` while any
other key fails with `NoSuchKey`.  (`get` executes a single `SELECT` and is a
pure function of the database, so it has no side effects by construction.) -/
theorem get_semantics (db : Db) (user_token : String) (request : GetObjectRequest) :
    (∀ row, dbGet db user_token request.store_id request.key = some row →
      get db user_token request =
        .ok { value := some { key := row.key, value := row.value,
                              version := row.version } }) ∧
    (dbGet db user_token request.store_id request.key = none →
      request.key = GLOBAL_VERSION_KEY →
      get db user_token request =
        .ok { value := some { key := GLOBAL_VERSION_KEY, value := [], version := 0 } }) ∧
    (dbGet db user_token request.store_id request.key = none →
      request.key ≠ GLOBAL_VERSION_KEY →
      get db user_token request =
        .error (VssError.NoSuchKeyError "Requested key not found.")) := by
  refine ⟨?_, ?_, ?_⟩
  · intro row h
    unfold get
    rw [h]
  · intro h hkey
    unfold get
    rw [h]
    simp [hkey]
  · intro h hkey
    unfold get
    rw [h]
    simp [hkey]

/-- Witness for C5 at a concrete input: a miss on an ordinary key fails with
`NoSuchKey`. -/
theorem get_semantics_witness :
    get [] "u" { store_id := "s", key := "a" } =
      .error (VssError.NoSuchKeyError "Requested key not found.") :=
  (get_semantics [] "u" { store_id := "s", key := "a" }).2.2 rfl (by decide)

/-! ### C6 -/

/-- C6: a single-item delete with `key_value` present that affects zero rows
(missing record or mismatched conditional version) still answers `ok` with the
database unchanged; in particular a non-conditional delete (version −1) of a
non-existent record succeeds silently. -/
theorem delete_zero_rows_still_ok (db : Db) (now : Nat) (user_token : String)
    (request : DeleteObjectRequest) (kv : KeyValue)
    (hkv : request.key_value = some kv) :
    ((execute_delete_object_query db
        (build_vss_record now user_token request.store_id kv)).2 = 0 →
      delete db now user_token request = (.ok {}, db)) ∧
    (kv.version = -1 →
      dbContains db user_token request.store_id kv.key = false →
      delete db now user_token request = (.ok {}, db)) := by
  have main : (execute_delete_object_query db
      (build_vss_record now user_token request.store_id kv)).2 = 0 →
      delete db now user_token request = (.ok {}, db) := by
    intro h0
    unfold delete
    rw [hkv]
    simp [h0]
  refine ⟨main, ?_⟩
  intro hv hcont
  apply main
  have hfilter : db.filter
      (fun r => pkMatches r user_token request.store_id kv.key) = [] := by
    rw [List.filter_eq_nil_iff]
    intro a ha hpk
    have : db.any (fun r => pkMatches r user_token request.store_id kv.key) = true :=
      List.any_eq_true.mpr ⟨a, ha, hpk⟩
    rw [dbContains] at hcont
    rw [hcont] at this
    exact Bool.false_ne_true this
  unfold execute_delete_object_query
  rw [if_pos]
  · unfold execute_non_conditional_delete
    show (db.filter _).length = 0
    dsimp only [build_vss_record]
    rw [hfilter]
    rfl
  · show ((build_vss_record now user_token request.store_id kv).version == -1) = true
    simp [build_vss_record, hv]

/-- A store with one record of version 2 under key `"k"` (C6 witness). -/
def dbOneRecordV2 : Db :=
  [{ user_token := "u", store_id := "s", key := "k", value := [1],
     version := 2, created_at := 0, last_updated_at := 0 }]

/-- A non-conditional delete of the absent key `"x"` (C6 witness input). -/
def deleteRequestMissingKey : DeleteObjectRequest :=
  { store_id := "s", key_value := some { key := "x", value := [], version := -1 } }

/-- Witness for C6 at a concrete input: deleting an absent key
non-conditionally answers `ok` and leaves the store unchanged. -/
theorem delete_zero_rows_still_ok_witness :
    delete dbOneRecordV2 0 "u" deleteRequestMissingKey = (.ok {}, dbOneRecordV2) :=
  (delete_zero_rows_still_ok dbOneRecordV2 0 "u" deleteRequestMissingKey
    { key := "x", value := [], version := -1 } rfl).2 rfl (by decide)

/-! ### C8 -/

/-- C8: the reserved global-version key never appears among the returned
`key_versions` of `list_key_versions`, for every database and request: the
paged query result is filtered of the reserved key before being returned. -/
theorem list_never_returns_reserved_key (db : Db) (user_token : String)
    (request : ListKeyVersionsRequest) (response : ListKeyVersionsResponse)
    (h : list_key_versions db user_token request = .ok response) :
    ∀ kv ∈ response.key_versions, kv.key ≠ GLOBAL_VERSION_KEY := by
  intro kv hmem
  unfold list_key_versions at h
  dsimp only at h
  split at h
  · exact absurd h (by simp)
  · rw [Except.ok.injEq] at h
    subst h
    simp only at hmem
    obtain ⟨row, hrow, hkv⟩ := List.mem_map.mp hmem
    have hne : (row.key != GLOBAL_VERSION_KEY) = true := (List.mem_filter.mp hrow).2
    rw [bne_iff_ne] at hne
    rw [← hkv]
    exact hne

/-- A store holding the reserved record at version 5 and one ordinary record
(C8 witness input). -/
def dbWithReserved : Db :=
  [{ user_token := "u", store_id := "s", key := "vss_global_version", value := [],
     version := 5, created_at := 0, last_updated_at := 0 },
   { user_token := "u", store_id := "s", key := "a", value := [1],
     version := 1, created_at := 0, last_updated_at := 0 }]

/-- A first-page listing request over the whole store (C8 witness input). -/
def listRequestFirstPage : ListKeyVersionsRequest :=
  { store_id := "s", key_prefix := none, page_size := none, page_token := none }

/-- Witness for C8 at a concrete input: with the reserved record present in
the store, the single entry of the returned page is not the reserved key. -/
theorem list_never_returns_reserved_key_witness :
    ({ key := "a", value := [], version := 1 } : KeyValue).key ≠ GLOBAL_VERSION_KEY :=
  list_never_returns_reserved_key dbWithReserved "u" listRequestFirstPage
    { key_versions := [{ key := "a", value := [], version := 1 }],
      next_page_token := some "a", global_version := some 5 } (by rfl)
    { key := "a", value := [], version := 1 } (by decide)

/-! ### C9: the stored-version invariant and conditional dispatch of
negative versions -/

/-- Every stored record has a non-negative version. -/
def dbVersionsNonneg (db : Db) : Prop := ∀ r ∈ db, 0 ≤ r.version

/-- A saturated increment of a non-negative version stays non-negative. -/
theorem satAdd1_nonneg (v : Int) (h : 0 ≤ v) : 0 ≤ satAdd1 v := by
  unfold satAdd1
  split
  · norm_num [I64_MAX]
  · omega

/-- The non-conditional upsert stores only version `INITIAL_RECORD_VERSION`. -/
theorem nonneg_upsert (db : Db) (vssRecord : VssDbRecord)
    (h : dbVersionsNonneg db) :
    dbVersionsNonneg (execute_non_conditional_upsert db vssRecord).1 := by
  unfold execute_non_conditional_upsert
  split
  · intro r hr
    obtain ⟨r0, hr0, rfl⟩ := List.mem_map.mp hr
    split
    · exact (by decide : (0 : Int) ≤ INITIAL_RECORD_VERSION)
    · exact h r0 hr0
  · intro r hr
    rcases List.mem_cons.mp hr with heq | hmem
    · subst heq
      exact (by decide : (0 : Int) ≤ INITIAL_RECORD_VERSION)
    · exact h r hmem

/-- The conditional insert stores only version `INITIAL_RECORD_VERSION`. -/
theorem nonneg_cond_insert (db : Db) (vssRecord : VssDbRecord)
    (h : dbVersionsNonneg db) :
    dbVersionsNonneg (execute_conditional_insert db vssRecord).1 := by
  unfold execute_conditional_insert
  split
  · exact h
  · intro r hr
    rcases List.mem_cons.mp hr with heq | hmem
    · subst heq
      exact (by decide : (0 : Int) ≤ INITIAL_RECORD_VERSION)
    · exact h r hmem

/-- The conditional update increments a matched (hence non-negative) version. -/
theorem nonneg_cond_update (db : Db) (vssRecord : VssDbRecord)
    (h : dbVersionsNonneg db) :
    dbVersionsNonneg (execute_conditional_update db vssRecord).1 := by
  intro r hr
  obtain ⟨r0, hr0, rfl⟩ := List.mem_map.mp hr
  cases hcm : condMatches r0 vssRecord with
  | false => simp only [hcm, Bool.false_eq_true, if_false]; exact h r0 hr0
  | true =>
    simp only [hcm, if_true]
    show 0 ≤ satAdd1 vssRecord.version
    have hv : r0.version = vssRecord.version := by
      unfold condMatches at hcm
      rw [Bool.and_eq_true] at hcm
      exact beq_iff_eq.mp hcm.2
    exact satAdd1_nonneg _ (hv ▸ h r0 hr0)

/-- Deleting rows preserves the version invariant. -/
theorem nonneg_filter (db : Db) (p : VssDbRecord → Bool)
    (h : dbVersionsNonneg db) : dbVersionsNonneg (db.filter p) :=
  fun r hr => h r (List.mem_of_mem_filter hr)

/-- Any single put statement preserves the version invariant. -/
theorem nonneg_execute_put_query (db : Db) (vssRecord : VssDbRecord)
    (h : dbVersionsNonneg db) :
    dbVersionsNonneg (execute_put_object_query db vssRecord).1 := by
  unfold execute_put_object_query
  split
  · exact nonneg_upsert db vssRecord h
  · split
    · exact nonneg_cond_insert db vssRecord h
    · exact nonneg_cond_update db vssRecord h

/-- Any single delete statement preserves the version invariant. -/
theorem nonneg_execute_delete_query (db : Db) (vssRecord : VssDbRecord)
    (h : dbVersionsNonneg db) :
    dbVersionsNonneg (execute_delete_object_query db vssRecord).1 := by
  unfold execute_delete_object_query
  split
  · exact nonneg_filter db _ h
  · exact nonneg_filter db _ h

/-- Running a write batch preserves the version invariant. -/
theorem nonneg_runPutQueries (recs : List VssDbRecord) (db : Db)
    (h : dbVersionsNonneg db) : dbVersionsNonneg (runPutQueries db recs).1 := by
  induction recs generalizing db with
  | nil => exact h
  | cons r rest ih =>
    show dbVersionsNonneg (runPutQueries (execute_put_object_query db r).1 rest).1
    exact ih _ (nonneg_execute_put_query db r h)

/-- A requested version ≤ −2 is not rejected: it dispatches to the conditional
update. -/
theorem put_query_cond_update_of_le_neg_two (db : Db) (vssRecord : VssDbRecord)
    (hv : vssRecord.version ≤ -2) :
    execute_put_object_query db vssRecord = execute_conditional_update db vssRecord := by
  unfold execute_put_object_query
  rw [if_neg (by simp only [beq_iff_eq]; omega),
    if_neg (by simp only [beq_iff_eq]; omega)]

/-- A requested version ≤ −2 is not rejected: it dispatches to the conditional
delete. -/
theorem delete_query_cond_delete_of_le_neg_two (db : Db) (vssRecord : VssDbRecord)
    (hv : vssRecord.version ≤ -2) :
    execute_delete_object_query db vssRecord = execute_conditional_delete db vssRecord := by
  unfold execute_delete_object_query
  rw [if_neg (by simp only [beq_iff_eq]; omega)]

/-- On a store satisfying the version invariant, no row matches a requested
version ≤ −2. -/
theorem cond_filter_nil_of_le_neg_two (db : Db) (vssRecord : VssDbRecord)
    (h : dbVersionsNonneg db) (hv : vssRecord.version ≤ -2) :
    db.filter (fun r => condMatches r vssRecord) = [] := by
  rw [List.filter_eq_nil_iff]
  intro a ha hcm
  unfold condMatches at hcm
  rw [Bool.and_eq_true] at hcm
  have hveq : a.version = vssRecord.version := beq_iff_eq.mp hcm.2
  have := h a ha
  omega

/-- A conditional update with requested version ≤ −2 affects zero rows and
leaves the store unchanged. -/
theorem cond_update_zero_of_le_neg_two (db : Db) (vssRecord : VssDbRecord)
    (h : dbVersionsNonneg db) (hv : vssRecord.version ≤ -2) :
    (execute_conditional_update db vssRecord).2 = 0 := by
  show (db.filter _).length = 0
  rw [cond_filter_nil_of_le_neg_two db vssRecord h hv]
  rfl

/-- A conditional delete with requested version ≤ −2 affects zero rows. -/
theorem cond_delete_zero_of_le_neg_two (db : Db) (vssRecord : VssDbRecord)
    (h : dbVersionsNonneg db) (hv : vssRecord.version ≤ -2) :
    (execute_conditional_delete db vssRecord).2 = 0 := by
  show (db.filter _).length = 0
  rw [cond_filter_nil_of_le_neg_two db vssRecord h hv]
  rfl

/-- A write batch containing a record of version ≤ −2 collects a zero
affected-row count, provided the store satisfies the version invariant. -/
theorem zero_mem_runPutQueries (recs : List VssDbRecord) (db : Db)
    (h : dbVersionsNonneg db) (rec0 : VssDbRecord) (hmem : rec0 ∈ recs)
    (hv : rec0.version ≤ -2) : 0 ∈ (runPutQueries db recs).2 := by
  induction recs generalizing db with
  | nil => cases hmem
  | cons r rest ih =>
    show 0 ∈ (execute_put_object_query db r).2 ::
      (runPutQueries (execute_put_object_query db r).1 rest).2
    rcases List.mem_cons.mp hmem with heq | hrest
    · subst heq
      have hz : (execute_put_object_query db rec0).2 = 0 := by
        rw [put_query_cond_update_of_le_neg_two db rec0 hv]
        exact cond_update_zero_of_le_neg_two db rec0 h hv
      exact List.mem_cons.mpr (Or.inl hz.symm)
    · exact List.mem_cons.mpr
        (Or.inr (ih _ (nonneg_execute_put_query db r h) hrest))

/-- A delete batch containing a record of version ≤ −2 collects a zero
affected-row count, provided the store satisfies the version invariant. -/
theorem zero_mem_runDeleteQueries (recs : List VssDbRecord) (db : Db)
    (h : dbVersionsNonneg db) (rec0 : VssDbRecord) (hmem : rec0 ∈ recs)
    (hv : rec0.version ≤ -2) : 0 ∈ (runDeleteQueries db recs).2 := by
  induction recs generalizing db with
  | nil => cases hmem
  | cons r rest ih =>
    show 0 ∈ (execute_delete_object_query db r).2 ::
      (runDeleteQueries (execute_delete_object_query db r).1 rest).2
    rcases List.mem_cons.mp hmem with heq | hrest
    · subst heq
      have hz : (execute_delete_object_query db rec0).2 = 0 := by
        rw [delete_query_cond_delete_of_le_neg_two db rec0 hv]
        exact cond_delete_zero_of_le_neg_two db rec0 h hv
      exact List.mem_cons.mpr (Or.inl hz.symm)
    · exact List.mem_cons.mpr
        (Or.inr (ih _ (nonneg_execute_delete_query db r h) hrest))

/-- A put whose batch results contain a zero rolls back with `Conflict`. -/
theorem put_conflict_of_zero_mem (db : Db) (now : Nat) (user_token : String)
    (request : PutObjectRequest)
    (hsize : request.transaction_items.length + request.delete_items.length ≤
      MAX_PUT_REQUEST_ITEM_COUNT)
    (hmem : 0 ∈ putBatchResults db now user_token request) :
    put db now user_token request =
      (.error (VssError.ConflictError
        "Transaction could not be completed due to a possible conflict"), db) := by
  unfold put
  rw [if_neg (by omega), if_pos]
  rw [List.any_eq_true]
  exact ⟨0, hmem, by simp⟩

/-- C9: write and delete items with requested version ≤ −2 are not rejected as
invalid input but dispatched as conditional operations (update/delete where
the stored version equals the requested one).  On a store whose records all
carry non-negative versions such an operation affects zero rows, so inside a
put batch it makes the whole batch fail with `Conflict` (database unchanged),
while a single-item delete still answers `ok`. -/
theorem le_neg_two_versions_are_conditional (db : Db) (now : Nat)
    (user_token : String) (request : PutObjectRequest) (kv : KeyValue)
    (hdb : dbVersionsNonneg db) (hv : kv.version ≤ -2) :
    (∀ vssRecord : VssDbRecord, vssRecord.version ≤ -2 →
      execute_put_object_query db vssRecord = execute_conditional_update db vssRecord ∧
      execute_delete_object_query db vssRecord = execute_conditional_delete db vssRecord ∧
      (execute_put_object_query db vssRecord).2 = 0 ∧
      (execute_delete_object_query db vssRecord).2 = 0) ∧
    (request.transaction_items.length + request.delete_items.length ≤
        MAX_PUT_REQUEST_ITEM_COUNT →
      kv ∈ request.transaction_items ∨ kv ∈ request.delete_items →
      put db now user_token request =
        (.error (VssError.ConflictError
          "Transaction could not be completed due to a possible conflict"), db)) ∧
    (∀ sid : String,
      delete db now user_token { store_id := sid, key_value := some kv } =
        (.ok {}, db)) := by
  refine ⟨?_, ?_, ?_⟩
  · intro vssRecord hvr
    refine ⟨put_query_cond_update_of_le_neg_two db vssRecord hvr,
      delete_query_cond_delete_of_le_neg_two db vssRecord hvr, ?_, ?_⟩
    · rw [put_query_cond_update_of_le_neg_two db vssRecord hvr]
      exact cond_update_zero_of_le_neg_two db vssRecord hdb hvr
    · rw [delete_query_cond_delete_of_le_neg_two db vssRecord hvr]
      exact cond_delete_zero_of_le_neg_two db vssRecord hdb hvr
  · intro hsize hmem
    apply put_conflict_of_zero_mem db now user_token request hsize
    unfold putBatchResults
    dsimp only
    rcases hmem with hput | hdel
    · apply List.mem_append.mpr
      apply Or.inl
      apply zero_mem_runPutQueries _ db hdb
        (build_vss_record now user_token request.store_id kv) _ hv
      unfold putWriteRecords
      cases hgv : request.global_version with
      | some gv =>
        exact List.mem_append.mpr
          (Or.inl (List.mem_map_of_mem _ hput))
      | none =>
        exact List.mem_map_of_mem _ hput
    · apply List.mem_append.mpr
      apply Or.inr
      apply zero_mem_runDeleteQueries _ _ (nonneg_runPutQueries _ db hdb)
        (build_vss_record now user_token request.store_id kv) _ hv
      unfold putDeleteRecords
      exact List.mem_map_of_mem _ hdel
  · intro sid
    have hz : (execute_delete_object_query db
        (build_vss_record now user_token sid kv)).2 = 0 := by
      rw [delete_query_cond_delete_of_le_neg_two db
        (build_vss_record now user_token sid kv) hv]
      exact cond_delete_zero_of_le_neg_two db
        (build_vss_record now user_token sid kv) hdb hv
    unfold delete
    simp [hz]

/-- A store with one record of version 3 (C9 witness input). -/
def dbC9 : Db :=
  [{ user_token := "u", store_id := "s", key := "k", value := [1],
     version := 3, created_at := 0, last_updated_at := 0 }]

/-- A write item with requested version −2 (C9 witness input). -/
def kvC9 : KeyValue := { key := "k", value := [9], version := -2 }

/-- A put request carrying the version −2 item (C9 witness input). -/
def requestC9 : PutObjectRequest :=
  { store_id := "s", global_version := none,
    transaction_items := [{ key := "k", value := [9], version := -2 }],
    delete_items := [] }

/-- Witness for C9 at a concrete input: one batch item of version −2 makes a
put against a version-3 record fail with `Conflict` and change nothing. -/
theorem le_neg_two_versions_are_conditional_witness :
    put dbC9 0 "u" requestC9 =
      (.error (VssError.ConflictError
        "Transaction could not be completed due to a possible conflict"), dbC9) :=
  (le_neg_two_versions_are_conditional dbC9 0 "u" requestC9 kvC9
    (by unfold dbVersionsNonneg; decide) (by decide)).2.1
    (by decide) (Or.inl (by decide))

/-! ### C10 -/

/-- C10: the 1000-item limit counts only `transaction_items` and
`delete_items`; the appended global-version write joins the write set after
the check, so a request with exactly 1000 items and a present
`global_version` is accepted and its transaction executes 1001 statements. -/
theorem put_limit_excludes_global_version_write (db : Db) (now : Nat)
    (user_token : String) (request : PutObjectRequest) (gv : Int)
    (hsum : request.transaction_items.length + request.delete_items.length = 1000)
    (hgv : request.global_version = some gv) :
    (∀ msg, (put db now user_token request).1 ≠
      .error (VssError.InvalidRequestError msg)) ∧
    (putWriteRecords now user_token request).length +
      (putDeleteRecords now user_token request).length = 1001 ∧
    (putBatchResults db now user_token request).length = 1001 := by
  have hwlen : (putWriteRecords now user_token request).length =
      request.transaction_items.length + 1 := by
    unfold putWriteRecords
    rw [hgv]
    simp
  have hdlen : (putDeleteRecords now user_token request).length =
      request.delete_items.length := by
    unfold putDeleteRecords
    simp
  refine ⟨put_first_component_ne_invalid db now user_token request
    (by simp only [MAX_PUT_REQUEST_ITEM_COUNT]; omega), by omega, ?_⟩
  unfold putBatchResults
  dsimp only
  rw [List.length_append, runPutQueries_snd_length, runDeleteQueries_snd_length]
  omega

/-- A request with exactly 1000 write items plus a global version (C10
witness input). -/
def putRequestThousand : PutObjectRequest :=
  { store_id := "s", global_version := some 0,
    transaction_items := List.replicate 1000 { key := "k", value := [], version := -1 },
    delete_items := [] }

/-- Witness for C10 at a concrete input: the 1000-item request with a present
global version executes 1001 statements. -/
theorem put_limit_excludes_global_version_write_witness :
    (putBatchResults [] 0 "u" putRequestThousand).length = 1001 :=
  (put_limit_excludes_global_version_write [] 0 "u" putRequestThousand 0
    (by simp only [putRequestThousand, List.length_replicate, List.length_nil])
    rfl).2.2

end Vss
